import Mathlib

/-!
Verification of the `Gridworld` environment in `src/Grid.py`.

Shallow embedding conventions:
* The numpy reward grid stores floats, with `np.NaN` used purely as a
  barrier sentinel; we embed a cell as `Option ℚ` where `none` is the
  barrier marker and `some v` is the stored reward value.
* Python coordinates are plain ints; internal state coordinates are
  `[y, x]` pairs, embedded as `ℤ × ℤ` with first component `y`.
* Constructor parameters give coordinates as `[x, y]` pairs of natural
  numbers (the documented in-bounds input space), as in the Python
  constructor's convention.
* The two random draws in `step` are made explicit: the Bernoulli trial
  `np.random.choice([True,False], p=[1-eps, eps])` is embedded as a
  uniform draw `u ∈ [0,1)` with outcome `u < 1 - eps`, and the uniform
  action re-draw `np.random.choice(4)` as a `Fin 4` parameter.
-/

/-- The environment state: grid dimensions, epsilon, the mutable agent
position, the fixed initial and terminal positions (all stored `[y, x]`),
and the reward grid (`none` = barrier/NaN). Mirrors the attributes set in
`Gridworld.__init__`. -/
structure Gridworld where
  x_dim : ℕ
  y_dim : ℕ
  epsilon : ℚ
  agent : ℤ × ℤ
  initial_agent : ℤ × ℤ
  terminal : ℤ × ℤ
  world : ℤ → ℤ → Option ℚ

/-- Point update of the grid at row `y`, column `x` (numpy
`world[y, x] = v`). -/
def setCell (w : ℤ → ℤ → Option ℚ) (y x : ℤ) (v : Option ℚ) : ℤ → ℤ → Option ℚ :=
  fun y' x' => if y' = y ∧ x' = x then v else w y' x'

/-- The all-zero grid `np.zeros(shape=(y_dim, x_dim))` (totalized beyond
the bounds; all reads in the embedded code are bounds-guarded). -/
def worldBase : ℤ → ℤ → Option ℚ := fun _ _ => some 0

/-- Layer 1: `world[terminal[0], terminal[1]] = 10`. `terminal` is the
internal `[y, x]` coordinate. -/
def applyTerminal (terminal : ℤ × ℤ) (w : ℤ → ℤ → Option ℚ) : ℤ → ℤ → Option ℚ :=
  setCell w terminal.1 terminal.2 (some 10)

/-- Layer 2: `for r in neg_reward: world[r[1], r[0]] = r[2]`. Each entry
is `(x, y, reward)` in the constructor's `[x, y]` convention. -/
def applyNegRewards (neg_reward : List (ℕ × ℕ × ℚ)) (w : ℤ → ℤ → Option ℚ) :
    ℤ → ℤ → Option ℚ :=
  neg_reward.foldl (fun w r => setCell w (r.2.1 : ℤ) (r.1 : ℤ) (some r.2.2)) w

/-- Layer 3: `for b in barrier: world[b[1], b[0]] = np.NaN`. Each entry is
`(x, y)` in the constructor's `[x, y]` convention. -/
def applyBarriers (barrier : List (ℕ × ℕ)) (w : ℤ → ℤ → Option ℚ) :
    ℤ → ℤ → Option ℚ :=
  barrier.foldl (fun w b => setCell w (b.2 : ℤ) (b.1 : ℤ) none) w

/-- `Gridworld.__init__`: store the parameters (swapping constructor
`[x, y]` coordinates into internal `[y, x]` form), then build the grid in
order: zeros, terminal bonus, negative rewards, barriers. -/
def mkGridworld (x_dim y_dim : ℕ) (epsilon : ℚ) (start terminal : ℕ × ℕ)
    (neg_reward : List (ℕ × ℕ × ℚ)) (barrier : List (ℕ × ℕ)) : Gridworld :=
  { x_dim := x_dim
    y_dim := y_dim
    epsilon := epsilon
    agent := ((start.2 : ℤ), (start.1 : ℤ))
    initial_agent := ((start.2 : ℤ), (start.1 : ℤ))
    terminal := ((terminal.2 : ℤ), (terminal.1 : ℤ))
    world := applyBarriers barrier (applyNegRewards neg_reward
      (applyTerminal ((terminal.2 : ℤ), (terminal.1 : ℤ)) worldBase)) }

/-- `Gridworld.isValid(x, y)`: bounds check, then the cell is not the
barrier sentinel. -/
def Gridworld.isValid (g : Gridworld) (x y : ℤ) : Bool :=
  if 0 ≤ x ∧ x < (g.x_dim : ℤ) ∧ 0 ≤ y ∧ y < (g.y_dim : ℤ) then
    (g.world y x).isSome
  else
    false

/-- `Gridworld.inTerminal()`: exact equality of the `[y, x]` pairs. -/
def Gridworld.inTerminal (g : Gridworld) : Bool :=
  decide (g.agent = g.terminal)

/-- `Gridworld.reset()`: set the agent back to the initial position and
return that position. -/
def Gridworld.reset (g : Gridworld) : Gridworld × (ℤ × ℤ) :=
  ({ g with agent := g.initial_agent }, g.initial_agent)

/-- The exploration-noise layer of `step`: keep the requested action iff
the Bernoulli trial succeeds (`u < 1 - epsilon` for the uniform draw `u`),
otherwise substitute the uniformly drawn `randAct`. -/
def Gridworld.executedAction (g : Gridworld) (u : ℚ) (randAct : Fin 4) (action : ℤ) : ℤ :=
  if u < 1 - g.epsilon then action else ((randAct : ℕ) : ℤ)

/-- The directional delta applied by `step` to the `[y, x]` position:
`0` = up, `1` = down, `2` = left, `3` = right; any other action value
falls through every branch and leaves the coordinates unchanged. -/
def moveTarget (pos : ℤ × ℤ) (action : ℤ) : ℤ × ℤ :=
  if action = 0 then (pos.1 - 1, pos.2)
  else if action = 1 then (pos.1 + 1, pos.2)
  else if action = 2 then (pos.1, pos.2 - 1)
  else if action = 3 then (pos.1, pos.2 + 1)
  else (pos.1, pos.2)

/-- `Gridworld.step(action)` with the two random draws explicit: noise
layer, candidate position, validity gate committing the move and reading
the cell reward (default `-0.1` is the dead initial value of the reward
variable), else the `-0.5` penalty; returns the new state together with
`(position, reward, inTerminal)`. -/
def Gridworld.step (g : Gridworld) (u : ℚ) (randAct : Fin 4) (action : ℤ) :
    Gridworld × ((ℤ × ℤ) × ℚ × Bool) :=
  let act := g.executedAction u randAct action
  let cand := moveTarget g.agent act
  let reward : ℚ := -1/10
  if g.isValid cand.2 cand.1 then
    let g' := { g with agent := cand }
    let reward := (g'.world cand.1 cand.2).getD reward
    (g', (g'.agent, reward, g'.inTerminal))
  else
    (g, (g.agent, -1/2, g.inTerminal))

/-- One externally driven operation on the environment: a `step` call
(with its two random draws) or a `reset` call. -/
inductive Op where
  | doStep (u : ℚ) (randAct : Fin 4) (action : ℤ)
  | doReset

/-- Apply one operation, keeping only the successor state. -/
def applyOp (g : Gridworld) : Op → Gridworld
  | .doStep u randAct action => (g.step u randAct action).1
  | .doReset => (g.reset).1

/-- Run a sequence of `step`/`reset` calls from a state. -/
def applyOps (g : Gridworld) (ops : List Op) : Gridworld :=
  ops.foldl applyOp g

/-- The legal-position predicate: the agent's current `[y, x]` position
passes `isValid`. -/
def Gridworld.LegalPos (g : Gridworld) : Prop :=
  g.isValid g.agent.2 g.agent.1 = true

/-- The reference default configuration of the constructor
(`Gridworld()` with all defaults). -/
def defaultGridworld : Gridworld :=
  mkGridworld 5 5 (1/10) (0, 0) (4, 0)
    [(0, 4, -1), (2, 1, -1), (4, 4, -1)]
    [(1, 2), (2, 0), (2, 3)]

/-- The default configuration with exploration noise turned off
(`epsilon = 0`), used as a concrete test vehicle. -/
def zeroEpsGridworld : Gridworld :=
  mkGridworld 5 5 0 (0, 0) (4, 0)
    [(0, 4, -1), (2, 1, -1), (4, 4, -1)]
    [(1, 2), (2, 0), (2, 3)]

example : defaultGridworld.isValid 0 0 = true := by decide
example : defaultGridworld.isValid 2 0 = false := by decide
example : defaultGridworld.isValid (-1) 0 = false := by decide
example : defaultGridworld.world 0 4 = some 10 := by decide
example : defaultGridworld.world 4 0 = some (-1) := by decide

/-! ### Basic unfolding lemmas -/

/-- `step` in closed form: the noise layer picks the executed action, the
candidate is its move target, and the validity gate selects between the
committed move (with its cell reward and terminal test) and the unchanged
state with the `-0.5` penalty. -/
theorem step_eq (g : Gridworld) (u : ℚ) (randAct : Fin 4) (action : ℤ) :
    g.step u randAct action =
      if g.isValid (moveTarget g.agent (g.executedAction u randAct action)).2
          (moveTarget g.agent (g.executedAction u randAct action)).1 then
        ({ g with agent := moveTarget g.agent (g.executedAction u randAct action) },
          (moveTarget g.agent (g.executedAction u randAct action),
            (g.world (moveTarget g.agent (g.executedAction u randAct action)).1
                (moveTarget g.agent (g.executedAction u randAct action)).2).getD (-1/10),
            decide (moveTarget g.agent (g.executedAction u randAct action) = g.terminal)))
      else
        (g, (g.agent, -1/2, g.inTerminal)) :=
  rfl

theorem isValid_setAgent (g : Gridworld) (p : ℤ × ℤ) (x y : ℤ) :
    ({ g with agent := p } : Gridworld).isValid x y = g.isValid x y :=
  rfl

theorem executedAction_of_keep (g : Gridworld) (u : ℚ) (randAct : Fin 4) (action : ℤ)
    (h : u < 1 - g.epsilon) : g.executedAction u randAct action = action :=
  if_pos h

theorem moveTarget_of_unknown (pos : ℤ × ℤ) (action : ℤ)
    (h : ¬(action = 0 ∨ action = 1 ∨ action = 2 ∨ action = 3)) :
    moveTarget pos action = pos := by
  push_neg at h
  obtain ⟨h0, h1, h2, h3⟩ := h
  simp [moveTarget, h0, h1, h2, h3]

theorem isValid_isSome (g : Gridworld) (x y : ℤ) (h : g.isValid x y = true) :
    (g.world y x).isSome = true := by
  unfold Gridworld.isValid at h
  split at h
  · exact h
  · exact absurd h (by simp)

theorem isValid_bounds (g : Gridworld) (x y : ℤ) (h : g.isValid x y = true) :
    0 ≤ x ∧ x < (g.x_dim : ℤ) ∧ 0 ≤ y ∧ y < (g.y_dim : ℤ) := by
  unfold Gridworld.isValid at h
  split at h
  · assumption
  · exact absurd h (by simp)

/-! ### Invariant preservation -/

/-- Both the current and the initial agent position are legal. -/
def Gridworld.Inv (g : Gridworld) : Prop :=
  g.isValid g.agent.2 g.agent.1 = true ∧
  g.isValid g.initial_agent.2 g.initial_agent.1 = true

theorem inv_step (g : Gridworld) (u : ℚ) (randAct : Fin 4) (action : ℤ)
    (h : g.Inv) : ((g.step u randAct action).1).Inv := by
  rw [step_eq]
  by_cases hv : g.isValid (moveTarget g.agent (g.executedAction u randAct action)).2
      (moveTarget g.agent (g.executedAction u randAct action)).1 = true
  · rw [if_pos hv]
    exact ⟨hv, h.2⟩
  · rw [if_neg (by simpa using hv)]
    exact h

theorem inv_reset (g : Gridworld) (h : g.Inv) : ((g.reset).1).Inv :=
  ⟨h.2, h.2⟩

theorem inv_applyOp (g : Gridworld) (op : Op) (h : g.Inv) : (applyOp g op).Inv := by
  cases op with
  | doStep u randAct action => exact inv_step g u randAct action h
  | doReset => exact inv_reset g h

theorem inv_applyOps (ops : List Op) : ∀ g : Gridworld, g.Inv → (applyOps g ops).Inv := by
  induction ops with
  | nil => exact fun g h => h
  | cons op t ih => exact fun g h => ih (applyOp g op) (inv_applyOp g op h)

/-! ### Construction layering lemmas -/

theorem applyBarriers_nil (w : ℤ → ℤ → Option ℚ) : applyBarriers [] w = w :=
  rfl

theorem applyBarriers_cons (b : ℕ × ℕ) (t : List (ℕ × ℕ)) (w : ℤ → ℤ → Option ℚ) :
    applyBarriers (b :: t) w = applyBarriers t (setCell w (b.2 : ℤ) (b.1 : ℤ) none) :=
  rfl

theorem applyBarriers_none (l : List (ℕ × ℕ)) :
    ∀ (w : ℤ → ℤ → Option ℚ) (y x : ℤ), w y x = none → applyBarriers l w y x = none := by
  induction l with
  | nil => exact fun w y x h => h
  | cons b t ih =>
    intro w y x h
    rw [applyBarriers_cons]
    apply ih
    unfold setCell
    split
    · rfl
    · exact h

theorem applyBarriers_mem (l : List (ℕ × ℕ)) (x y : ℕ) (hmem : (x, y) ∈ l) :
    ∀ w : ℤ → ℤ → Option ℚ, applyBarriers l w (y : ℤ) (x : ℤ) = none := by
  induction l with
  | nil => exact absurd hmem (List.not_mem_nil _)
  | cons b t ih =>
    intro w
    rw [applyBarriers_cons]
    rcases List.mem_cons.mp hmem with hb | ht
    · apply applyBarriers_none
      unfold setCell
      rw [if_pos]
      rw [← hb]
      exact ⟨rfl, rfl⟩
    · exact ih ht _

/-- With `epsilon = 0`, the Bernoulli draw `u = 0` keeps the requested
action. -/
theorem zeroEps_keep (randAct : Fin 4) (action : ℤ) :
    zeroEpsGridworld.executedAction 0 randAct action = action :=
  executedAction_of_keep _ _ _ _ (by show (0 : ℚ) < 1 - 0; simp)

/-! ### Claims -/

/-- C1: Legal-position invariant — if the initial position of the freshly
constructed environment is in-bounds and not a barrier (`isValid`), then
after any sequence of `step` and `reset` calls, for any random draws and
any actions, the agent position still satisfies `isValid`. -/
theorem C1_legal_position_invariant (x_dim y_dim : ℕ) (epsilon : ℚ)
    (start terminal : ℕ × ℕ) (neg_reward : List (ℕ × ℕ × ℚ)) (barrier : List (ℕ × ℕ))
    (h : (mkGridworld x_dim y_dim epsilon start terminal neg_reward barrier).isValid
      (start.1 : ℤ) (start.2 : ℤ) = true)
    (ops : List Op) :
    (applyOps (mkGridworld x_dim y_dim epsilon start terminal neg_reward barrier)
      ops).LegalPos :=
  (inv_applyOps ops _ ⟨h, h⟩).1

/-- C1 witness: the default configuration has a legal start cell, and a
concrete step/reset/step run keeps the agent on a legal cell. -/
theorem C1_legal_position_invariant_witness :
    (mkGridworld 5 5 (1/10) (0, 0) (4, 0) [(0, 4, -1), (2, 1, -1), (4, 4, -1)]
      [(1, 2), (2, 0), (2, 3)]).isValid 0 0 = true ∧
    (applyOps (mkGridworld 5 5 (1/10) (0, 0) (4, 0) [(0, 4, -1), (2, 1, -1), (4, 4, -1)]
      [(1, 2), (2, 0), (2, 3)])
      [Op.doStep 0 0 3, Op.doReset, Op.doStep 0 1 1]).LegalPos :=
  ⟨by decide,
    C1_legal_position_invariant 5 5 (1/10) (0, 0) (4, 0)
      [(0, 4, -1), (2, 1, -1), (4, 4, -1)] [(1, 2), (2, 0), (2, 3)] (by decide)
      [Op.doStep 0 0 3, Op.doReset, Op.doStep 0 1 1]⟩

/-- C2: Invalid-move policy — whenever the executed action's candidate
position fails `isValid` (out of bounds or barrier), `step` leaves the
agent position unchanged, returns it unchanged, and yields the fixed
penalty reward `-0.5` instead of any cell value. -/
theorem C2_invalid_move_policy (g : Gridworld) (u : ℚ) (randAct : Fin 4) (action : ℤ)
    (h : g.isValid (moveTarget g.agent (g.executedAction u randAct action)).2
      (moveTarget g.agent (g.executedAction u randAct action)).1 = false) :
    (g.step u randAct action).1.agent = g.agent ∧
    (g.step u randAct action).2.1 = g.agent ∧
    (g.step u randAct action).2.2.1 = -1/2 := by
  rw [step_eq, if_neg (by simp [h])]
  exact ⟨rfl, rfl, rfl⟩

/-- C2 witness: in the zero-epsilon default grid, moving `up` from the
start corner `(0, 0)` is out of bounds, keeps the position at `(0, 0)`,
and returns the `-0.5` penalty. -/
theorem C2_invalid_move_policy_witness :
    zeroEpsGridworld.isValid
      (moveTarget zeroEpsGridworld.agent (zeroEpsGridworld.executedAction 0 0 0)).2
      (moveTarget zeroEpsGridworld.agent (zeroEpsGridworld.executedAction 0 0 0)).1 = false ∧
    (zeroEpsGridworld.step 0 0 0).1.agent = zeroEpsGridworld.agent ∧
    (zeroEpsGridworld.step 0 0 0).2.1 = zeroEpsGridworld.agent ∧
    (zeroEpsGridworld.step 0 0 0).2.2.1 = -1/2 :=
  ⟨by rw [zeroEps_keep]; decide,
    C2_invalid_move_policy zeroEpsGridworld 0 0 0 (by rw [zeroEps_keep]; decide)⟩

/-- C3: `isValid(x, y)` is true exactly when `0 ≤ y < y_dim`,
`0 ≤ x < x_dim`, and the cell at `(y, x)` is not the barrier marker; it is
a pure function of the state. -/
theorem C3_isValid_spec (g : Gridworld) (x y : ℤ) :
    g.isValid x y = true ↔
      (0 ≤ y ∧ y < (g.y_dim : ℤ) ∧ 0 ≤ x ∧ x < (g.x_dim : ℤ) ∧ g.world y x ≠ none) := by
  unfold Gridworld.isValid
  by_cases hb : 0 ≤ x ∧ x < (g.x_dim : ℤ) ∧ 0 ≤ y ∧ y < (g.y_dim : ℤ)
  · rw [if_pos hb]
    constructor
    · intro hs
      exact ⟨hb.2.2.1, hb.2.2.2, hb.1, hb.2.1, Option.isSome_iff_ne_none.mp hs⟩
    · intro hc
      exact Option.isSome_iff_ne_none.mpr hc.2.2.2.2
  · rw [if_neg hb]
    constructor
    · intro hfalse
      exact absurd hfalse (by simp)
    · intro hc
      exact absurd ⟨hc.2.2.1, hc.2.2.2.1, hc.1, hc.2.1⟩ hb

/-- C3 witness: the iff instantiated at the default grid's barrier cell
`(x, y) = (2, 0)`. -/
theorem C3_isValid_spec_witness :
    defaultGridworld.isValid 2 0 = true ↔
      (0 ≤ (0 : ℤ) ∧ (0 : ℤ) < (defaultGridworld.y_dim : ℤ) ∧ 0 ≤ (2 : ℤ) ∧
        (2 : ℤ) < (defaultGridworld.x_dim : ℤ) ∧ defaultGridworld.world 0 2 ≠ none) :=
  C3_isValid_spec defaultGridworld 2 0

/-- C4: Construction layering — the grid is the ordered composition of the
zero base, the terminal bonus, the negative-reward entries, and finally
the barrier markings, so every coordinate listed as a barrier ends up as
the barrier marker even if it also appears in the reward list or equals
the terminal coordinate. -/
theorem C4_construction_layering (x_dim y_dim : ℕ) (epsilon : ℚ)
    (start terminal : ℕ × ℕ) (neg_reward : List (ℕ × ℕ × ℚ)) (barrier : List (ℕ × ℕ))
    (x y : ℕ) (hmem : (x, y) ∈ barrier) :
    (mkGridworld x_dim y_dim epsilon start terminal neg_reward barrier).world =
      applyBarriers barrier (applyNegRewards neg_reward
        (applyTerminal ((terminal.2 : ℤ), (terminal.1 : ℤ)) worldBase)) ∧
    (mkGridworld x_dim y_dim epsilon start terminal neg_reward barrier).world
      (y : ℤ) (x : ℤ) = none :=
  ⟨rfl, applyBarriers_mem barrier x y hmem _⟩

/-- C4 witness: a configuration whose barrier list contains the terminal
coordinate and a reward-listed coordinate; both still end up barriers. -/
theorem C4_construction_layering_witness :
    ((4, 0) ∈ [((4 : ℕ), (0 : ℕ)), (0, 4)]) ∧
    (mkGridworld 5 5 0 (0, 0) (4, 0) [(0, 4, -1)] [(4, 0), (0, 4)]).world 0 4 = none ∧
    (mkGridworld 5 5 0 (0, 0) (4, 0) [(0, 4, -1)] [(4, 0), (0, 4)]).world 4 0 = none :=
  ⟨by decide,
    (C4_construction_layering 5 5 0 (0, 0) (4, 0) [(0, 4, -1)] [(4, 0), (0, 4)] 4 0
      (by decide)).2,
    (C4_construction_layering 5 5 0 (0, 0) (4, 0) [(0, 4, -1)] [(4, 0), (0, 4)] 0 4
      (by decide)).2⟩

/-- Any zero-epsilon environment keeps the requested action under the
draw `u = 0`. -/
theorem eps0_keep (g : Gridworld) (heps : g.epsilon = 0) (randAct : Fin 4) (action : ℤ) :
    g.executedAction 0 randAct action = action :=
  executedAction_of_keep _ _ _ _ (by rw [heps, sub_zero]; exact zero_lt_one)

/-- C5: Zero-epsilon determinism — with `epsilon = 0` the Bernoulli trial
always keeps the requested action for every draw `u ∈ [0, 1)`, the new
position is the requested action's move target (gated by validity), and
the result of `step` does not depend on either random draw. -/
theorem C5_zero_epsilon_determinism (g : Gridworld) (u u' : ℚ) (randAct randAct' : Fin 4)
    (action : ℤ) (heps : g.epsilon = 0)
    (_ha : action = 0 ∨ action = 1 ∨ action = 2 ∨ action = 3)
    (_hu0 : 0 ≤ u) (hu1 : u < 1) (_hu0' : 0 ≤ u') (hu1' : u' < 1) :
    g.executedAction u randAct action = action ∧
    (g.step u randAct action).1.agent =
      (if g.isValid (moveTarget g.agent action).2 (moveTarget g.agent action).1
        then moveTarget g.agent action else g.agent) ∧
    g.step u randAct action = g.step u' randAct' action := by
  have e1 : g.executedAction u randAct action = action :=
    executedAction_of_keep _ _ _ _ (by rw [heps, sub_zero]; exact hu1)
  have e2 : g.executedAction u' randAct' action = action :=
    executedAction_of_keep _ _ _ _ (by rw [heps, sub_zero]; exact hu1')
  refine ⟨e1, ?_, ?_⟩
  · rw [step_eq, e1]
    by_cases hv : g.isValid (moveTarget g.agent action).2 (moveTarget g.agent action).1 = true
    · rw [if_pos hv, if_pos hv]
    · rw [if_neg hv, if_neg hv]
  · rw [step_eq, step_eq, e1, e2]

/-- C5 witness: in the zero-epsilon default grid, requesting `right` gives
the same step result under two different random re-draws. -/
theorem C5_zero_epsilon_determinism_witness :
    zeroEpsGridworld.epsilon = 0 ∧
    zeroEpsGridworld.executedAction 0 2 3 = 3 ∧
    zeroEpsGridworld.step 0 2 3 = zeroEpsGridworld.step 0 1 3 := by
  have h := C5_zero_epsilon_determinism zeroEpsGridworld 0 0 2 1 3 rfl
    (by decide) (by decide) (by decide) (by decide) (by decide)
  exact ⟨rfl, h.1, h.2.2⟩

/-- C6: Reset postcondition and idempotence — `reset` returns the initial
position, sets the agent to it, a second `reset` changes nothing more, and
after `reset` the terminal test is exactly whether the initial and
terminal positions coincide. -/
theorem C6_reset_postcondition (g : Gridworld) :
    (g.reset).2 = g.initial_agent ∧
    (g.reset).1.agent = g.initial_agent ∧
    ((g.reset).1).reset = g.reset ∧
    ((g.reset).1.inTerminal = true ↔ g.initial_agent = g.terminal) := by
  refine ⟨rfl, rfl, rfl, ?_⟩
  simp [Gridworld.reset, Gridworld.inTerminal]

/-- C7: Terminal semantics — `inTerminal` is exact coordinate equality of
the agent and terminal positions, and a step whose executed action lands
exactly on a terminal cell holding the configured bonus `10` returns
reward `10` with the terminal flag true. -/
theorem C7_terminal_semantics (g : Gridworld) (u : ℚ) (randAct : Fin 4) (action : ℤ)
    (hterm : g.world g.terminal.1 g.terminal.2 = some 10)
    (hv : g.isValid g.terminal.2 g.terminal.1 = true)
    (hcand : moveTarget g.agent (g.executedAction u randAct action) = g.terminal) :
    (∀ g' : Gridworld, g'.inTerminal = true ↔ g'.agent = g'.terminal) ∧
    (g.step u randAct action).1.agent = g.terminal ∧
    (g.step u randAct action).2.2.1 = 10 ∧
    (g.step u randAct action).2.2.2 = true := by
  have hgate : g.isValid (moveTarget g.agent (g.executedAction u randAct action)).2
      (moveTarget g.agent (g.executedAction u randAct action)).1 = true := by
    rw [hcand]; exact hv
  refine ⟨fun g' => by simp [Gridworld.inTerminal], ?_, ?_, ?_⟩
  · rw [step_eq, if_pos hgate]
    exact hcand
  · rw [step_eq, if_pos hgate]
    show (g.world _ _).getD (-1/10) = 10
    rw [hcand, hterm]
    rfl
  · rw [step_eq, if_pos hgate]
    show decide _ = true
    rw [hcand]
    simp

/-- A zero-epsilon grid with the agent starting one cell left of the
terminal and no obstacles, for exercising the terminal step. -/
def terminalStepGridworld : Gridworld :=
  mkGridworld 5 5 0 (3, 0) (4, 0) [] []

/-- C7 witness: stepping `right` from `(row 0, col 3)` lands on the
terminal `(row 0, col 4)`, returning reward `10` and terminal flag true. -/
theorem C7_terminal_semantics_witness :
    terminalStepGridworld.world 0 4 = some 10 ∧
    (terminalStepGridworld.inTerminal = true ↔
      terminalStepGridworld.agent = terminalStepGridworld.terminal) ∧
    (terminalStepGridworld.step 0 0 3).1.agent = terminalStepGridworld.terminal ∧
    (terminalStepGridworld.step 0 0 3).2.2.1 = 10 ∧
    (terminalStepGridworld.step 0 0 3).2.2.2 = true := by
  have h := C7_terminal_semantics terminalStepGridworld 0 0 3 (by decide) (by decide)
    (by rw [eps0_keep terminalStepGridworld rfl]; decide)
  exact ⟨by decide, h.1 terminalStepGridworld, h.2.1, h.2.2.1, h.2.2.2⟩

/-- C8: Dead default reward — every `step` result's reward is either the
value stored at the committed cell or the `-0.5` invalid-move penalty; the
`-0.1` initialization of the reward variable is overwritten on both
execution paths and never escapes as such. -/
theorem C8_dead_default_reward (g : Gridworld) (u : ℚ) (randAct : Fin 4) (action : ℤ) :
    (∃ v, (g.step u randAct action).1.world ((g.step u randAct action).1.agent.1)
        ((g.step u randAct action).1.agent.2) = some v ∧
      (g.step u randAct action).2.2.1 = v) ∨
    (g.step u randAct action).2.2.1 = -1/2 := by
  rw [step_eq]
  by_cases hv : g.isValid (moveTarget g.agent (g.executedAction u randAct action)).2
      (moveTarget g.agent (g.executedAction u randAct action)).1 = true
  · rw [if_pos hv]
    left
    obtain ⟨v, hval⟩ := Option.isSome_iff_exists.mp (isValid_isSome _ _ _ hv)
    exact ⟨v, hval, by rw [hval]; rfl⟩
  · rw [if_neg hv]
    right
    rfl

/-- C9 counterexample: calling `step` with the out-of-range action `4`
(while the exploration draw keeps it) does not fail: it completes normally
and returns the ordinary tuple — position unchanged at `(0, 0)`, the
current cell's reward `0`, terminal flag `false` — so no invalid-argument
error is raised. -/
theorem C9_invalid_action_counterexample :
    (zeroEpsGridworld.step 0 0 4).1.agent = zeroEpsGridworld.agent ∧
    (zeroEpsGridworld.step 0 0 4).2 = (((0 : ℤ), (0 : ℤ)), (0 : ℚ), false) := by
  rw [step_eq, eps0_keep zeroEpsGridworld rfl]
  decide

/-- C9 amended: an action value outside `{0, 1, 2, 3}` is not rejected;
when the exploration draw keeps the requested action, `step` completes
normally and leaves the agent position unchanged (returning it as the new
position). -/
theorem C9_invalid_action_amended (g : Gridworld) (u : ℚ) (randAct : Fin 4) (action : ℤ)
    (ha : ¬(action = 0 ∨ action = 1 ∨ action = 2 ∨ action = 3))
    (hkeep : u < 1 - g.epsilon) :
    (g.step u randAct action).1.agent = g.agent ∧
    (g.step u randAct action).2.1 = g.agent := by
  have e := executedAction_of_keep g u randAct action hkeep
  have m : moveTarget g.agent (g.executedAction u randAct action) = g.agent := by
    rw [e]; exact moveTarget_of_unknown g.agent action ha
  rw [step_eq, m]
  by_cases hv : g.isValid g.agent.2 g.agent.1 = true
  · rw [if_pos hv]
    exact ⟨rfl, rfl⟩
  · rw [if_neg hv]
    exact ⟨rfl, rfl⟩

/-- C9 amended witness: action `5` in the zero-epsilon default grid leaves
the position at the start corner. -/
theorem C9_invalid_action_amended_witness :
    ¬((5 : ℤ) = 0 ∨ (5 : ℤ) = 1 ∨ (5 : ℤ) = 2 ∨ (5 : ℤ) = 3) ∧
    (zeroEpsGridworld.step 0 0 5).1.agent = zeroEpsGridworld.agent ∧
    (zeroEpsGridworld.step 0 0 5).2.1 = zeroEpsGridworld.agent :=
  ⟨by decide,
    C9_invalid_action_amended zeroEpsGridworld 0 0 5 (by decide)
      (by show (0 : ℚ) < 1 - 0; simp)⟩

/-- C10: Implicit no-op on unknown action — for an action outside
`{0, 1, 2, 3}`, when the exploration trial keeps the requested action and
the current position is valid, `step` raises no error: the candidate
equals the current position, the position is unchanged, the reward is the
value stored at the current cell (not the `-0.5` penalty branch), and the
flag is the current `inTerminal`. -/
theorem C10_unknown_action_noop (g : Gridworld) (u : ℚ) (randAct : Fin 4) (action : ℤ)
    (ha : ¬(action = 0 ∨ action = 1 ∨ action = 2 ∨ action = 3))
    (hkeep : u < 1 - g.epsilon)
    (hv : g.isValid g.agent.2 g.agent.1 = true) :
    moveTarget g.agent (g.executedAction u randAct action) = g.agent ∧
    (g.step u randAct action).1.agent = g.agent ∧
    (g.step u randAct action).2.1 = g.agent ∧
    (∃ v, g.world g.agent.1 g.agent.2 = some v ∧ (g.step u randAct action).2.2.1 = v) ∧
    (g.step u randAct action).2.2.2 = g.inTerminal := by
  have e := executedAction_of_keep g u randAct action hkeep
  have m : moveTarget g.agent (g.executedAction u randAct action) = g.agent := by
    rw [e]; exact moveTarget_of_unknown g.agent action ha
  have hgate : g.isValid (moveTarget g.agent (g.executedAction u randAct action)).2
      (moveTarget g.agent (g.executedAction u randAct action)).1 = true := by
    rw [m]; exact hv
  obtain ⟨v, hval⟩ := Option.isSome_iff_exists.mp (isValid_isSome _ _ _ hv)
  refine ⟨m, ?_, ?_, ⟨v, hval, ?_⟩, ?_⟩
  · rw [step_eq, if_pos hgate, m]
  · rw [step_eq, if_pos hgate, m]
  · rw [step_eq, if_pos hgate, m, hval]
    rfl
  · rw [step_eq, if_pos hgate, m]
    rfl

/-- C10 witness: action `-1` in the zero-epsilon default grid is a silent
no-op returning the start cell's reward `0` and the current terminal
flag. -/
theorem C10_unknown_action_noop_witness :
    ¬((-1 : ℤ) = 0 ∨ (-1 : ℤ) = 1 ∨ (-1 : ℤ) = 2 ∨ (-1 : ℤ) = 3) ∧
    zeroEpsGridworld.isValid zeroEpsGridworld.agent.2 zeroEpsGridworld.agent.1 = true ∧
    (zeroEpsGridworld.step 0 0 (-1)).1.agent = zeroEpsGridworld.agent ∧
    (zeroEpsGridworld.step 0 0 (-1)).2.1 = zeroEpsGridworld.agent ∧
    (zeroEpsGridworld.step 0 0 (-1)).2.2.1 = 0 ∧
    (zeroEpsGridworld.step 0 0 (-1)).2.2.2 = zeroEpsGridworld.inTerminal := by
  have h := C10_unknown_action_noop zeroEpsGridworld 0 0 (-1) (by decide)
    (by show (0 : ℚ) < 1 - 0; simp) (by decide)
  refine ⟨by decide, by decide, h.2.1, h.2.2.1, ?_, h.2.2.2.2⟩
  obtain ⟨v, hv1, hv2⟩ := h.2.2.2.1
  have hv0 : some v = some (0 : ℚ) := by rw [← hv1]; decide
  injection hv0 with h0
  rw [hv2, h0]
